import Mathlib

/-!
Verification of the medallion data pipeline (bronze → silver → gold).

The silver stage (`validate_transaction`, `clean_and_validate`) and the
gold stage (`create_customer_summary`, `create_merchant_category_analysis`,
`create_analytical_tables`) are embedded as executable Lean functions over
lists of records.  Dynamically typed pandas cells are modelled by `Value`;
Python exceptions are modelled by `Except PyErr`; floating point numbers
are idealised as exact rationals.
-/

namespace Pipeline

/-- A dynamically typed pandas cell: a numeric value, a string, a parsed
timestamp (an integer time code), or the absent marker (pandas treats
`NaN`, `NaT` and `None` uniformly under `isna`). -/
inductive Value where
  | num (q : ℚ)
  | str (s : String)
  | timeVal (t : ℤ)
  | absent
deriving DecidableEq, Repr, Inhabited

/-- A Python exception, as surfaced by the library calls the pipeline makes. -/
inductive PyErr where
  | typeError
  | parseError
deriving DecidableEq, Repr

/-- Models `pd.isna` on a single cell. -/
def pdIsna : Value → Bool
  | .absent => true
  | _ => false

/-- The character `-`. -/
def dashChar : Char := Char.ofNat 45

/-- The character `.`. -/
def dotChar : Char := Char.ofNat 46

/-- Value of a nonempty all-digit character list, `none` otherwise. -/
def digitsVal (cs : List Char) : Option ℕ :=
  if cs = [] then none
  else if cs.all (fun c => c.isDigit) then
    some (cs.foldl (fun acc c => acc * 10 + (c.toNat - 48)) 0)
  else none

/-- Unsigned decimal numeral, optionally with a fractional part. -/
def parseUnsigned (cs : List Char) : Option ℚ :=
  let (intPart, rest) := cs.span (fun c => c.isDigit)
  match rest with
  | [] => (digitsVal intPart).map (fun n => (n : ℚ))
  | c :: fracPart =>
    if c = dotChar then
      match digitsVal intPart, digitsVal fracPart with
      | some n, some f => some ((n : ℚ) + (f : ℚ) / (10 : ℚ) ^ fracPart.length)
      | _, _ => none
    else none

/-- Simplified executable model of the numeric parser behind
`pd.to_numeric` on strings: an optional leading minus sign followed by a
decimal numeral.  Strings outside this grammar fail to parse. -/
def parseNumeric (s : String) : Option ℚ :=
  match s.toList with
  | [] => none
  | c :: rest =>
    if c = dashChar then (parseUnsigned rest).map (fun q => -q)
    else parseUnsigned (c :: rest)

/-- Seconds per day, the unit conversion used for timedelta days. -/
def secondsPerDay : ℤ := 86400

/-- Simplified executable model of the date parser behind
`pd.to_datetime` on strings: an ISO `YYYY-MM-DD` date, mapped to an
integer time code via a simplified calendar (31-day months), strictly
monotone in (year, month, day).  Strings outside this grammar fail to
parse. -/
def parseTimestamp (s : String) : Option ℤ :=
  let cs := s.toList
  let (ys, r1) := cs.span (fun c => c.isDigit)
  match r1 with
  | c1 :: r2 =>
    if c1 = dashChar then
      let (ms, r3) := r2.span (fun c => c.isDigit)
      match r3 with
      | c2 :: r4 =>
        if c2 = dashChar then
          let (ds, r5) := r4.span (fun c => c.isDigit)
          if r5 = [] then
            match digitsVal ys, digitsVal ms, digitsVal ds with
            | some y, some m, some d =>
              if 1 ≤ m ∧ m ≤ 12 ∧ 1 ≤ d ∧ d ≤ 31 then
                some (secondsPerDay * ((y : ℤ) * 372 + ((m : ℤ) - 1) * 31 + ((d : ℤ) - 1)))
              else none
            | _, _, _ => none
          else none
        else none
      | [] => none
    else none
  | [] => none

/-- Models `pd.to_datetime` on a single cell (external library
behaviour): the absent marker maps to `NaT` (still absent), an already
parsed timestamp is returned unchanged, a numeric value is interpreted
as an epoch offset, and a string is parsed, raising on parse failure. -/
def pdToDatetime : Value → Except PyErr Value
  | .absent => .ok .absent
  | .timeVal t => .ok (.timeVal t)
  | .num q => .ok (.timeVal ⌊q⌋)
  | .str s =>
    match parseTimestamp s with
    | some t => .ok (.timeVal t)
    | none => .error .parseError

/-- Models `pd.to_numeric(·, errors='coerce')` on a single cell: values
that cannot be interpreted as numbers become the absent marker (`NaN`)
instead of raising. -/
def pdToNumericCoerce : Value → Value
  | .num q => .num q
  | .str s =>
    match parseNumeric s with
    | some q => .num q
    | none => .absent
  | .timeVal _ => .absent
  | .absent => .absent

/-- Models the Python comparison `v < 0`: defined for numeric values
(IEEE semantics give `False` for the `NaN` absent marker), but a
`TypeError` for strings and timestamps, as in Python 3 / pandas. -/
def pyLtZero : Value → Except PyErr Bool
  | .num q => .ok (decide (q < 0))
  | .str _ => .error .typeError
  | .timeVal _ => .error .typeError
  | .absent => .ok false

/-- Models `trans_date > datetime.now()` on the result of
`pd.to_datetime`: strict comparison for a real timestamp, `False` for
`NaT` (pandas `NaT` comparisons are always `False`). -/
def pdGtNow (v : Value) (now : ℤ) : Bool :=
  match v with
  | .timeVal t => decide (now < t)
  | _ => false

/-- A transaction record, the unit flowing through the pipeline.
Fields the schema guarantees non-null are typed directly; the fields
the silver stage inspects or converts are dynamically typed cells. -/
structure Record where
  trans_num : String
  cc_num : ℤ
  first : String
  last : String
  city : String
  state : String
  job : String
  is_fraud : ℤ
  amt : Value
  merchant : Value
  category : Value
  trans_date_trans_time : Value
  dob : Value
  lat : Value
  long : Value
  merch_lat : Value
  merch_long : Value
deriving DecidableEq, Repr

def issueNegativeAmount : String := "negative_amount"

def issueMissingAmount : String := "missing_amount"

def issueMissingMerchant : String := "missing_merchant"

def issueMissingCategory : String := "missing_category"

def issueFutureDate : String := "future_date"

def issueInvalidDate : String := "invalid_date"

/-- The `try/except` block of `validate_transaction` around the date
check: all exceptions raised while interpreting the timestamp are
caught and become the `invalid_date` issue; otherwise `future_date` is
appended exactly when the parsed timestamp is strictly after `now`. -/
def dateIssues (now : ℤ) (v : Value) : List String :=
  match pdToDatetime v with
  | .error _ => [issueInvalidDate]
  | .ok t => if pdGtNow t now then [issueFutureDate] else []

/-- Embeds `validate_transaction` (silver_layer.py).  The checks run in
source order, each appending its issue independently; the negative
amount check `pd.notna(row['amt']) and row['amt'] < 0` can raise a
`TypeError` (uncaught) when the amount is a non-numeric present value;
`is_valid = len(issues) == 0`. -/
def validate_transaction (now : ℤ) (row : Record) : Except PyErr (Bool × List String) :=
  match (if pdIsna row.amt then Except.ok false else pyLtZero row.amt) with
  | .error e => .error e
  | .ok neg =>
    let issues : List String :=
      (if neg then [issueNegativeAmount] else [])
      ++ (if pdIsna row.amt then [issueMissingAmount] else [])
      ++ (if pdIsna row.merchant then [issueMissingMerchant] else [])
      ++ (if pdIsna row.category then [issueMissingCategory] else [])
      ++ dateIssues now row.trans_date_trans_time
    .ok (issues.isEmpty, issues)

/-- Comma-join, as in `','.join(issues)`. -/
def joinComma : List String → String
  | [] => ""
  | [s] => s
  | s :: rest => s ++ "," ++ joinComma rest

/-- A silver-layer output row: the converted record plus the validation
columns and the processing timestamp. -/
structure SilverRow where
  base : Record
  is_valid : Bool
  quality_issues : Option String
  silver_processed_at : ℤ
deriving DecidableEq, Repr

/-- The row-count statistics reported by the silver stage. -/
structure SilverStats where
  total_rows : ℕ
  valid_rows : ℕ
  invalid_rows : ℕ
deriving DecidableEq, Repr

/-- Effectful map over a list, stopping at the first raised exception
(as a column-wise pandas conversion aborts on the first bad value). -/
def mapE (f : α → Except PyErr β) : List α → Except PyErr (List β)
  | [] => .ok []
  | a :: as =>
    match f a with
    | .error e => .error e
    | .ok b =>
      match mapE f as with
      | .error e => .error e
      | .ok bs => .ok (b :: bs)

/-- The type-conversion block of `clean_and_validate`:
`trans_date_trans_time` and `dob` go through `pd.to_datetime` with the
default `errors='raise'`, while `amt`, `lat`, `long`, `merch_lat`,
`merch_long` go through `pd.to_numeric(errors='coerce')`.  The source
converts column by column; converting record by record is observationally
equivalent here, since every date parse failure raises the same error. -/
def convertRecord (r : Record) : Except PyErr Record :=
  match pdToDatetime r.trans_date_trans_time with
  | .error e => .error e
  | .ok t =>
    match pdToDatetime r.dob with
    | .error e => .error e
    | .ok d =>
      .ok { r with
        trans_date_trans_time := t
        dob := d
        amt := pdToNumericCoerce r.amt
        lat := pdToNumericCoerce r.lat
        long := pdToNumericCoerce r.long
        merch_lat := pdToNumericCoerce r.merch_lat
        merch_long := pdToNumericCoerce r.merch_long }

/-- One silver output row: run `validate_transaction` (propagating any
exception it raises) and attach `is_valid`, the comma-joined
`quality_issues` (absent when the issue list is empty), and the
processing timestamp. -/
def silverRow (now : ℤ) (r : Record) : Except PyErr SilverRow :=
  match validate_transaction now r with
  | .error e => .error e
  | .ok v =>
    .ok { base := r
          is_valid := v.1
          quality_issues := if v.2 = [] then none else some (joinComma v.2)
          silver_processed_at := now }

/-- Embeds `clean_and_validate` (silver_layer.py): convert types, attach
`is_valid` and `quality_issues` from `validate_transaction`, stamp the
processing timestamp, and report the row-count statistics
(`valid_rows = df['is_valid'].sum()`, `invalid_rows = (~df['is_valid']).sum()`,
`total_rows = len(df)`). -/
def clean_and_validate (now : ℤ) (input : List Record) :
    Except PyErr (List SilverRow × SilverStats) :=
  match mapE convertRecord input with
  | .error e => .error e
  | .ok converted =>
    match mapE (silverRow now) converted with
    | .error e => .error e
    | .ok rows =>
      .ok (rows,
        { total_rows := rows.length,
          valid_rows := (rows.filter (fun r => r.is_valid)).length,
          invalid_rows := (rows.filter (fun r => !r.is_valid)).length })

/-- Round half to even at integer precision, on exact rationals: the
rounding mode of pandas `.round` (floating point is idealised as exact
rational arithmetic throughout). -/
def roundHalfEven (q : ℚ) : ℤ :=
  let f := ⌊q⌋
  let r := q - f
  if r < 1/2 then f
  else if 1/2 < r then f + 1
  else if Even f then f else f + 1

/-- pandas `.round(2)`: round half to even at two decimal places. -/
def round2 (q : ℚ) : ℚ := (roundHalfEven (q * 100) : ℚ) / 100

/-- The numeric content of a cell, `none` for anything non-numeric
(pandas aggregations skip such cells). -/
def numOpt : Value → Option ℚ
  | .num q => some q
  | _ => none

/-- The timestamp content of a cell, `none` for anything else. -/
def timeOpt : Value → Option ℤ
  | .timeVal t => some t
  | _ => none

/-- pandas `median` over the non-absent values of a column: middle
element of the sorted values, or the mean of the two middle elements;
`NaN` (here `none`) when no value remains. -/
def median (l : List ℚ) : Option ℚ :=
  if l = [] then none
  else
    let s := List.insertionSort (fun a b : ℚ => a ≤ b) l
    let n := l.length
    if n % 2 = 1 then some (s.getD (n / 2) 0)
    else some ((s.getD (n / 2 - 1) 0 + s.getD (n / 2) 0) / 2)

/-- A row of the customer summary table.  Aggregates over columns that
may contain absent values are optional (`none` models `NaN`/`NaT`). -/
structure CustomerRow where
  customer_id : ℤ
  full_name : String
  total_transactions : ℕ
  total_spend : ℚ
  avg_transaction : Option ℚ
  median_transaction : Option ℚ
  fraud_count : ℤ
  first_transaction_date : Option ℤ
  last_transaction_date : Option ℤ
  unique_merchants : ℕ
  city : String
  state : String
  job : String
  fraud_rate : ℚ
  customer_lifetime_days : Option ℤ
deriving DecidableEq, Repr, Inhabited

/-- A row of the merchant category analysis table. -/
structure CategoryRow where
  category : Value
  total_transactions : ℕ
  total_amount : ℚ
  avg_amount : Option ℚ
  median_amount : Option ℚ
  fraud_count : ℤ
  unique_customers : ℕ
  unique_merchants : ℕ
  fraud_rate : ℚ
deriving DecidableEq, Repr, Inhabited

/-- The customer grouping key `['customer_id', 'full_name']`, where
`customer_id = cc_num` and `full_name = first + ' ' + last`. -/
def customerKey (r : SilverRow) : ℤ × String :=
  (r.base.cc_num, r.base.first ++ " " ++ r.base.last)

/-- One output row of the customer aggregation, over the group `g` of
rows sharing the key `k`.  Mirrors the `.agg` dictionary of
`create_customer_summary`: `count` counts the (non-null) `trans_num`
column, `sum`/`mean`/`median` skip absent amounts, `min`/`max` skip
absent timestamps, `nunique` counts distinct non-absent merchants,
`first` takes the first group member's value. -/
def mkCustomerRow (k : ℤ × String) (g : List SilverRow) : CustomerRow :=
  let amts := g.filterMap (fun r => numOpt r.base.amt)
  let fc := (g.map (fun r => r.base.is_fraud)).sum
  let tss := g.filterMap (fun r => timeOpt r.base.trans_date_trans_time)
  let tt := g.length
  { customer_id := k.1
    full_name := k.2
    total_transactions := tt
    total_spend := round2 amts.sum
    avg_transaction :=
      if amts = [] then none else some (round2 (amts.sum / (amts.length : ℚ)))
    median_transaction := (median amts).map round2
    fraud_count := fc
    first_transaction_date := tss.min?
    last_transaction_date := tss.max?
    unique_merchants :=
      ((g.map (fun r => r.base.merchant)).filter (fun v => !pdIsna v)).dedup.length
    city := (g.map (fun r => r.base.city)).headD (String.mk [])
    state := (g.map (fun r => r.base.state)).headD (String.mk [])
    job := (g.map (fun r => r.base.job)).headD (String.mk [])
    fraud_rate := round2 ((fc : ℚ) / (tt : ℚ) * 100)
    customer_lifetime_days :=
      match tss.min?, tss.max? with
      | some a, some b => some (Int.fdiv (b - a) secondsPerDay)
      | _, _ => none }

/-- Embeds `create_customer_summary` (gold_layer.py): group by the
customer key and aggregate each group.  pandas lists the groups in
sorted key order; no property below depends on the group order, so the
groups are listed in input dedup order here. -/
def create_customer_summary (df : List SilverRow) : List CustomerRow :=
  let keys := (df.map customerKey).dedup
  keys.map (fun k => mkCustomerRow k (df.filter (fun r => decide (customerKey r = k))))

/-- One output row of the category aggregation, over the group `g` of
rows sharing the category `k`, mirroring the `.agg` dictionary of
`create_merchant_category_analysis`. -/
def mkCategoryRow (k : Value) (g : List SilverRow) : CategoryRow :=
  let amts := g.filterMap (fun r => numOpt r.base.amt)
  let fc := (g.map (fun r => r.base.is_fraud)).sum
  let tt := g.length
  { category := k
    total_transactions := tt
    total_amount := round2 amts.sum
    avg_amount :=
      if amts = [] then none else some (round2 (amts.sum / (amts.length : ℚ)))
    median_amount := (median amts).map round2
    fraud_count := fc
    unique_customers := (g.map (fun r => r.base.cc_num)).dedup.length
    unique_merchants :=
      ((g.map (fun r => r.base.merchant)).filter (fun v => !pdIsna v)).dedup.length
    fraud_rate := round2 ((fc : ℚ) / (tt : ℚ) * 100) }

/-- Descending transaction-count order, the sort key of
`sort_values('total_transactions', ascending=False)`. -/
def byCountDesc (a b : CategoryRow) : Prop :=
  b.total_transactions ≤ a.total_transactions

instance : DecidableRel byCountDesc := fun a b =>
  Nat.decLe b.total_transactions a.total_transactions

instance : IsTotal CategoryRow byCountDesc :=
  ⟨fun a b => Nat.le_total b.total_transactions a.total_transactions⟩

instance : IsTrans CategoryRow byCountDesc :=
  ⟨fun _ _ _ h1 h2 => Nat.le_trans h2 h1⟩

/-- Embeds `create_merchant_category_analysis` (gold_layer.py): group by
`category` (pandas drops rows whose group key is absent), aggregate each
group, then sort descending by transaction count.  The source's unstable
quicksort is modelled by a stable sort; the relative order of tied rows
is unspecified behaviour either way. -/
def create_merchant_category_analysis (df : List SilverRow) : List CategoryRow :=
  let keyed := df.filter (fun r => !pdIsna r.base.category)
  let keys := (keyed.map (fun r => r.base.category)).dedup
  let rows := keys.map (fun k =>
    mkCategoryRow k (keyed.filter (fun r => decide (r.base.category = k))))
  List.insertionSort byCountDesc rows

/-- The row-count metadata reported by the gold stage. -/
structure GoldMeta where
  source_rows : ℕ
  valid_rows_used : ℕ
  customers : ℕ
  categories : ℕ
deriving DecidableEq, Repr

/-- Embeds `create_analytical_tables` (gold_layer.py): filter the silver
dataset to `is_valid` rows, build both tables, write them, and report
the metadata.  Writing the parquet files is modelled by returning the
two tables. -/
def create_analytical_tables (df : List SilverRow) :
    List CustomerRow × List CategoryRow × GoldMeta :=
  let dfValid := df.filter (fun r => r.is_valid)
  let cs := create_customer_summary dfValid
  let ca := create_merchant_category_analysis dfValid
  (cs, ca,
    { source_rows := df.length
      valid_rows_used := dfValid.length
      customers := cs.length
      categories := ca.length })

/-! Concrete inputs used by the witnesses and counterexamples below. -/

def sStoreA : String := "store_a"

def sStoreB : String := "store_b"

def sGrocery : String := "grocery_pos"

def sMisc : String := "misc_net"

def sJohn : String := "john"

def sDoe : String := "doe"

def sCity : String := "nyc"

def sState : String := "ny"

def sJob : String := "engineer"

def sT1 : String := "t1"

def sBadDate : String := "not-a-date"

def sBadNum : String := "abc"

def sGoodDate : String := "2024-01-05"

/-- A well-formed baseline record; the concrete inputs below are
variations of it. -/
def rec0 : Record :=
  { trans_num := sT1
    cc_num := 1
    first := sJohn
    last := sDoe
    city := sCity
    state := sState
    job := sJob
    is_fraud := 0
    amt := Value.num 10
    merchant := Value.str sStoreA
    category := Value.str sGrocery
    trans_date_trans_time := Value.timeVal 0
    dob := Value.timeVal 0
    lat := Value.num 1
    long := Value.num 1
    merch_lat := Value.num 1
    merch_long := Value.num 1 }

/-- Wraps a record as a valid silver row. -/
def asValidRow (r : Record) : SilverRow :=
  { base := r, is_valid := true, quality_issues := none, silver_processed_at := 0 }

/-- Three valid silver rows: two `grocery_pos` transactions (one
fraudulent) by customer 1, one `misc_net` transaction by customer 2. -/
def demoSilver : List SilverRow :=
  [asValidRow rec0,
   asValidRow { rec0 with is_fraud := 1, merchant := Value.str sStoreB },
   asValidRow { rec0 with cc_num := 2, category := Value.str sMisc }]

/-! Helper notions used to state and prove the claims. -/

instance {ε α : Type} [DecidableEq ε] [DecidableEq α] : DecidableEq (Except ε α)
  | .error e, .error f =>
    match decEq e f with
    | isTrue h => isTrue (by rw [h])
    | isFalse h => isFalse (by intro hc; cases hc; exact h rfl)
  | .error _, .ok _ => isFalse (by intro hc; cases hc)
  | .ok _, .error _ => isFalse (by intro hc; cases hc)
  | .ok a, .ok b =>
    match decEq a b with
    | isTrue h => isTrue (by rw [h])
    | isFalse h => isFalse (by intro hc; cases hc; exact h rfl)

/-- A cell is numeric or absent: the shape the type normalizer
guarantees for the numeric columns. -/
def numOrAbsent (v : Value) : Prop := v = .absent ∨ ∃ q, v = .num q

/-- Whether the negative-amount rule fires: amount present, numeric and
negative. -/
def negB (row : Record) : Bool :=
  match row.amt with
  | .num q => decide (q < 0)
  | _ => false

/-- Whether the future-date rule fires: the timestamp cell is
interpretable and strictly after `now`. -/
def futureB (now : ℤ) (v : Value) : Bool :=
  match pdToDatetime v with
  | .ok t => pdGtNow t now
  | .error _ => false

/-- Whether the invalid-date rule fires: interpreting the timestamp
cell raises. -/
def invalidB (v : Value) : Bool :=
  match pdToDatetime v with
  | .error _ => true
  | .ok _ => false

/-- The one-issue contribution of a rule. -/
def optIssue (b : Bool) (n : String) : List String := if b then [n] else []

/-- The issue list `validate_transaction` builds, written as one
segment per rule in source order. -/
def vIssues (now : ℤ) (row : Record) : List String :=
  optIssue (negB row) issueNegativeAmount
  ++ optIssue (pdIsna row.amt) issueMissingAmount
  ++ optIssue (pdIsna row.merchant) issueMissingMerchant
  ++ optIssue (pdIsna row.category) issueMissingCategory
  ++ dateIssues now row.trans_date_trans_time

/-- The fixed rule order of the validator. -/
def ruleNames : List String :=
  [issueNegativeAmount, issueMissingAmount, issueMissingMerchant,
   issueMissingCategory, issueFutureDate, issueInvalidDate]

/-- Whether a record violates the rule of the given name. -/
def violates (now : ℤ) (row : Record) (n : String) : Bool :=
  (decide (n = issueNegativeAmount) && negB row)
  || (decide (n = issueMissingAmount) && pdIsna row.amt)
  || (decide (n = issueMissingMerchant) && pdIsna row.merchant)
  || (decide (n = issueMissingCategory) && pdIsna row.category)
  || (decide (n = issueFutureDate) && futureB now row.trans_date_trans_time)
  || (decide (n = issueInvalidDate) && invalidB row.trans_date_trans_time)

theorem pdIsna_absent : pdIsna Value.absent = true := rfl

theorem pdIsna_num (q : ℚ) : pdIsna (Value.num q) = false := rfl

theorem pdIsna_str (s : String) : pdIsna (Value.str s) = false := rfl

theorem pdIsna_timeVal (t : ℤ) : pdIsna (Value.timeVal t) = false := rfl

theorem mem_optIssue {a n : String} {b : Bool} :
    a ∈ optIssue b n ↔ b = true ∧ a = n := by
  cases b <;> simp [optIssue]

theorem dateIssues_eq (now : ℤ) (v : Value) :
    dateIssues now v
      = optIssue (futureB now v) issueFutureDate
        ++ optIssue (invalidB v) issueInvalidDate := by
  cases h : pdToDatetime v with
  | error e => simp [dateIssues, futureB, invalidB, optIssue, h]
  | ok t =>
    cases hg : pdGtNow t now <;>
      simp [dateIssues, futureB, invalidB, optIssue, h, hg]

theorem validate_eq_ok (now : ℤ) (row : Record)
    (h : numOrAbsent row.amt) :
    validate_transaction now row
      = .ok ((vIssues now row).isEmpty, vIssues now row) := by
  rcases h with h | ⟨q, h⟩ <;>
    simp [validate_transaction, vIssues, optIssue, pyLtZero, pdIsna, negB, h, dateIssues_eq]

theorem validate_ok_inv (now : ℤ) (row : Record) (b : Bool)
    (issues : List String)
    (h : validate_transaction now row = .ok (b, issues)) :
    b = (vIssues now row).isEmpty ∧ issues = vIssues now row := by
  cases ha : row.amt with
  | num q =>
    have hv := validate_eq_ok now row (Or.inr ⟨q, ha⟩)
    rw [hv] at h
    injection h with h2
    injection h2 with hb hi
    exact ⟨hb.symm, hi.symm⟩
  | absent =>
    have hv := validate_eq_ok now row (Or.inl ha)
    rw [hv] at h
    injection h with h2
    injection h2 with hb hi
    exact ⟨hb.symm, hi.symm⟩
  | str s =>
    simp [validate_transaction, pdIsna, pyLtZero, ha] at h
  | timeVal t =>
    simp [validate_transaction, pdIsna, pyLtZero, ha] at h

theorem mem_vIssues_future (now : ℤ) (row : Record) :
    issueFutureDate ∈ vIssues now row
      ↔ futureB now row.trans_date_trans_time = true := by
  simp [vIssues, dateIssues_eq, mem_optIssue, List.mem_append,
    issueFutureDate, issueNegativeAmount, issueMissingAmount,
    issueMissingMerchant, issueMissingCategory, issueInvalidDate]

theorem mem_vIssues_invalid (now : ℤ) (row : Record) :
    issueInvalidDate ∈ vIssues now row
      ↔ invalidB row.trans_date_trans_time = true := by
  simp [vIssues, dateIssues_eq, mem_optIssue, List.mem_append,
    issueFutureDate, issueNegativeAmount, issueMissingAmount,
    issueMissingMerchant, issueMissingCategory, issueInvalidDate]

theorem futureB_true_iff (now : ℤ) (v : Value) :
    futureB now v = true
      ↔ ∃ t, pdToDatetime v = .ok (.timeVal t) ∧ now < t := by
  cases h : pdToDatetime v with
  | error e => simp [futureB, h]
  | ok w => cases w <;> simp [futureB, h, pdGtNow]

theorem invalidB_true_iff (v : Value) :
    invalidB v = true ↔ ∃ e, pdToDatetime v = .error e := by
  cases h : pdToDatetime v <;> simp [invalidB, h]

theorem futureB_invalidB_not_both (now : ℤ) (v : Value) :
    ¬(futureB now v = true ∧ invalidB v = true) := by
  cases h : pdToDatetime v <;> simp [futureB, invalidB, h]

theorem vIssues_eq_filter (now : ℤ) (row : Record) :
    vIssues now row = ruleNames.filter (violates now row) := by
  rw [vIssues, dateIssues_eq]
  cases h1 : negB row <;> cases h2 : pdIsna row.amt <;>
    cases h3 : pdIsna row.merchant <;> cases h4 : pdIsna row.category <;>
      cases h5 : futureB now row.trans_date_trans_time <;>
        cases h6 : invalidB row.trans_date_trans_time <;>
          simp [ruleNames, violates, optIssue, h1, h2, h3, h4, h5, h6,
            issueNegativeAmount, issueMissingAmount, issueMissingMerchant,
            issueMissingCategory, issueFutureDate, issueInvalidDate,
            List.filter_cons]

/-! The claims. -/

/-- C4: whenever `validate_transaction` returns a result, the returned
`is_valid` flag is true if and only if the returned issues list is
empty. -/
theorem claim_C4_valid_iff_no_issues (now : ℤ) (row : Record) (b : Bool)
    (issues : List String)
    (h : validate_transaction now row = .ok (b, issues)) :
    b = true ↔ issues = [] := by
  obtain ⟨hb, hi⟩ := validate_ok_inv now row b issues h
  subst hb; subst hi
  simp

/-- Witness for C4: a concrete fully valid record. -/
theorem claim_C4_witness :
    validate_transaction 5 rec0 = .ok (true, [])
      ∧ (true = true ↔ ([] : List String) = []) :=
  ⟨by with_unfolding_all decide,
   claim_C4_valid_iff_no_issues 5 rec0 true [] (by with_unfolding_all decide)⟩

/-- C5: the validator collects every applicable violation in the fixed
rule order `negative_amount, missing_amount, missing_merchant,
missing_category, future_date/invalid_date` (the issues list equals the
rule-order list filtered by rule applicability, so no rule pre-empts
another); in particular a record with amount and merchant absent,
category present and an interpretable non-future timestamp yields
exactly `[missing_amount, missing_merchant]`. -/
theorem claim_C5_all_rules_in_order :
    (∀ (now : ℤ) (row : Record) (b : Bool) (issues : List String),
       validate_transaction now row = .ok (b, issues) →
       issues = ruleNames.filter (violates now row)) ∧
    (∀ (now : ℤ) (row : Record),
       row.amt = .absent → row.merchant = .absent →
       pdIsna row.category = false →
       (row.trans_date_trans_time = .absent ∨
         ∃ t, pdToDatetime row.trans_date_trans_time = .ok (.timeVal t) ∧ t ≤ now) →
       validate_transaction now row
         = .ok (false, [issueMissingAmount, issueMissingMerchant])) := by
  constructor
  · intro now row b issues h
    obtain ⟨-, hi⟩ := validate_ok_inv now row b issues h
    rw [hi, vIssues_eq_filter]
  · intro now row ha hm hc ht
    have hv : vIssues now row = [issueMissingAmount, issueMissingMerchant] := by
      have hd : dateIssues now row.trans_date_trans_time = [] := by
        rcases ht with ht | ⟨t, ht, hle⟩
        · simp [dateIssues, ht, pdToDatetime, pdGtNow]
        · simp [dateIssues, ht, pdGtNow, not_lt.mpr hle]
      simp [vIssues, optIssue, negB, ha, hm, hc, hd, pdIsna_absent]
    have := validate_eq_ok now row (Or.inl ha)
    rw [hv] at this
    simpa using this

/-- Witness for C5: a concrete record with amount and merchant absent. -/
theorem claim_C5_witness :
    ([issueMissingAmount, issueMissingMerchant]
        = ruleNames.filter (violates 5 { rec0 with
            amt := Value.absent, merchant := Value.absent }))
      ∧ validate_transaction 5 { rec0 with
            amt := Value.absent, merchant := Value.absent }
          = .ok (false, [issueMissingAmount, issueMissingMerchant]) :=
  ⟨claim_C5_all_rules_in_order.1 5
      { rec0 with amt := Value.absent, merchant := Value.absent } false
      [issueMissingAmount, issueMissingMerchant] (by with_unfolding_all decide),
   claim_C5_all_rules_in_order.2 5
      { rec0 with amt := Value.absent, merchant := Value.absent } rfl rfl
      (by with_unfolding_all decide) (Or.inr ⟨0, rfl, by norm_num⟩)⟩

/-- C6: whenever the validator returns, `future_date` is reported
exactly when the timestamp cell is interpretable as a timestamp
strictly after `now` (an absent cell is not), `invalid_date` is
reported exactly when interpreting the timestamp raises, and the two
issues are mutually exclusive. -/
theorem claim_C6_future_invalid_date (now : ℤ) (row : Record) (b : Bool)
    (issues : List String)
    (h : validate_transaction now row = .ok (b, issues)) :
    (issueFutureDate ∈ issues
        ↔ ∃ t, pdToDatetime row.trans_date_trans_time = .ok (.timeVal t) ∧ now < t)
      ∧ (issueInvalidDate ∈ issues
        ↔ ∃ e, pdToDatetime row.trans_date_trans_time = .error e)
      ∧ ¬(issueFutureDate ∈ issues ∧ issueInvalidDate ∈ issues) := by
  obtain ⟨-, hi⟩ := validate_ok_inv now row b issues h
  subst hi
  refine ⟨?_, ?_, ?_⟩
  · rw [mem_vIssues_future]; exact futureB_true_iff now _
  · rw [mem_vIssues_invalid]; exact invalidB_true_iff _
  · rw [mem_vIssues_future, mem_vIssues_invalid]
    exact futureB_invalidB_not_both now _

/-- Witness for C6: a concrete record whose timestamp is strictly after
the validation time 5. -/
theorem claim_C6_witness :
    (issueFutureDate ∈ [issueFutureDate]
        ↔ ∃ t, pdToDatetime (Record.trans_date_trans_time
            { rec0 with trans_date_trans_time := Value.timeVal 10 })
            = .ok (.timeVal t) ∧ 5 < t)
      ∧ (issueInvalidDate ∈ [issueFutureDate]
        ↔ ∃ e, pdToDatetime (Record.trans_date_trans_time
            { rec0 with trans_date_trans_time := Value.timeVal 10 })
            = .error e)
      ∧ ¬(issueFutureDate ∈ [issueFutureDate]
            ∧ issueInvalidDate ∈ [issueFutureDate]) :=
  claim_C6_future_invalid_date 5
    { rec0 with trans_date_trans_time := Value.timeVal 10 } false
    [issueFutureDate] (by with_unfolding_all decide)

/-- C10: an absent transaction timestamp produces no timestamp-related
issue: neither `future_date` nor `invalid_date` is reported, and a
record satisfying every other rule but missing its timestamp is marked
valid with an empty issues list. -/
theorem claim_C10_absent_timestamp_no_issue :
    (∀ (now : ℤ) (row : Record) (b : Bool) (issues : List String),
       row.trans_date_trans_time = .absent →
       validate_transaction now row = .ok (b, issues) →
       issueFutureDate ∉ issues ∧ issueInvalidDate ∉ issues) ∧
    (∀ (now : ℤ) (row : Record),
       row.trans_date_trans_time = .absent →
       (∃ q, row.amt = .num q ∧ 0 ≤ q) →
       pdIsna row.merchant = false → pdIsna row.category = false →
       validate_transaction now row = .ok (true, [])) := by
  constructor
  · intro now row b issues ht h
    obtain ⟨-, hi⟩ := validate_ok_inv now row b issues h
    subst hi
    constructor
    · rw [mem_vIssues_future, ht]
      simp [futureB, pdToDatetime, pdGtNow]
    · rw [mem_vIssues_invalid, ht]
      simp [invalidB, pdToDatetime]
  · intro now row ht hq hm hc
    obtain ⟨q, ha, hq0⟩ := hq
    have hv : vIssues now row = [] := by
      have hnq : ¬(q < 0) := not_lt.mpr hq0
      simp [vIssues, optIssue, negB, ha, hm, hc, dateIssues,
        ht, pdToDatetime, pdGtNow, hnq, pdIsna_num]
    have := validate_eq_ok now row (Or.inr ⟨q, ha⟩)
    rw [hv] at this
    simpa using this

/-- Witness for C10: a concrete record with an absent timestamp that
satisfies every other rule. -/
theorem claim_C10_witness :
    (issueFutureDate ∉ ([] : List String)
        ∧ issueInvalidDate ∉ ([] : List String))
      ∧ validate_transaction 5 { rec0 with trans_date_trans_time := Value.absent }
          = .ok (true, []) :=
  ⟨claim_C10_absent_timestamp_no_issue.1 5
      { rec0 with trans_date_trans_time := Value.absent } true [] rfl
      (by with_unfolding_all decide),
   claim_C10_absent_timestamp_no_issue.2 5
      { rec0 with trans_date_trans_time := Value.absent } rfl
      ⟨10, rfl, by norm_num⟩ (by with_unfolding_all decide)
      (by with_unfolding_all decide)⟩

theorem pdToNumericCoerce_numOrAbsent (v : Value) :
    numOrAbsent (pdToNumericCoerce v) := by
  cases v with
  | str s =>
    cases h : parseNumeric s with
    | none => exact Or.inl (by simp [pdToNumericCoerce, h])
    | some q => exact Or.inr ⟨q, by simp [pdToNumericCoerce, h]⟩
  | num q => exact Or.inr ⟨q, rfl⟩
  | timeVal t => exact Or.inl rfl
  | absent => exact Or.inl rfl

theorem convertRecord_ok (r : Record)
    (ht : ∃ a, pdToDatetime r.trans_date_trans_time = .ok a)
    (hd : ∃ b, pdToDatetime r.dob = .ok b) :
    ∃ r2, convertRecord r = .ok r2 ∧ r2.amt = pdToNumericCoerce r.amt ∧
      r2.lat = pdToNumericCoerce r.lat ∧ r2.long = pdToNumericCoerce r.long ∧
      r2.merch_lat = pdToNumericCoerce r.merch_lat ∧
      r2.merch_long = pdToNumericCoerce r.merch_long := by
  obtain ⟨a, ha⟩ := ht
  obtain ⟨b, hb⟩ := hd
  refine ⟨{ r with
      trans_date_trans_time := a
      dob := b
      amt := pdToNumericCoerce r.amt
      lat := pdToNumericCoerce r.lat
      long := pdToNumericCoerce r.long
      merch_lat := pdToNumericCoerce r.merch_lat
      merch_long := pdToNumericCoerce r.merch_long }, ?_, rfl, rfl, rfl, rfl, rfl⟩
  simp [convertRecord, ha, hb]

theorem convertRecord_amt (r r2 : Record) (h : convertRecord r = .ok r2) :
    numOrAbsent r2.amt := by
  cases hT : pdToDatetime r.trans_date_trans_time with
  | error e => simp [convertRecord, hT] at h
  | ok t =>
    cases hD : pdToDatetime r.dob with
    | error e => simp [convertRecord, hT, hD] at h
    | ok d =>
      simp only [convertRecord, hT, hD, Except.ok.injEq] at h
      rw [← h]
      exact pdToNumericCoerce_numOrAbsent r.amt

theorem mapE_ok_forall {α β : Type} (f : α → Except PyErr β) (l : List α)
    (h : ∀ a ∈ l, ∃ b, f a = .ok b) :
    ∃ bs, mapE f l = .ok bs ∧ ∀ b ∈ bs, ∃ a ∈ l, f a = .ok b := by
  induction l with
  | nil => exact ⟨[], rfl, by simp⟩
  | cons a as ih =>
    obtain ⟨b, hb⟩ := h a (List.mem_cons_self a as)
    obtain ⟨bs, hbs, hmem⟩ := ih (fun x hx => h x (List.mem_cons_of_mem a hx))
    refine ⟨b :: bs, by simp [mapE, hb, hbs], ?_⟩
    intro y hy
    rcases List.mem_cons.mp hy with rfl | hy2
    · exact ⟨a, List.mem_cons_self a as, hb⟩
    · obtain ⟨x, hx, hfx⟩ := hmem y hy2
      exact ⟨x, List.mem_cons_of_mem a hx, hfx⟩

theorem mapE_length {α β : Type} (f : α → Except PyErr β) :
    ∀ (l : List α) (bs : List β), mapE f l = .ok bs → bs.length = l.length := by
  intro l
  induction l with
  | nil => intro bs h; cases h; rfl
  | cons a as ih =>
    intro bs h
    cases hf : f a with
    | error e => simp [mapE, hf] at h
    | ok b =>
      cases hm : mapE f as with
      | error e => simp [mapE, hf, hm] at h
      | ok bs2 =>
        simp only [mapE, hf, hm, Except.ok.injEq] at h
        rw [← h]
        simp [ih bs2 hm]

theorem silverRow_ok (now : ℤ) (r : Record) (h : numOrAbsent r.amt) :
    ∃ sr, silverRow now r = .ok sr := by
  refine ⟨{ base := r
            is_valid := (vIssues now r).isEmpty
            quality_issues :=
              if vIssues now r = [] then none
              else some (joinComma (vIssues now r))
            silver_processed_at := now }, ?_⟩
  simp [silverRow, validate_eq_ok now r h]

theorem length_filter_add_filter_not {α : Type} (p : α → Bool) (l : List α) :
    (l.filter p).length + (l.filter (fun a => !p a)).length = l.length := by
  induction l with
  | nil => rfl
  | cons a as ih => cases h : p a <;> simp [List.filter_cons, h] <;> omega

/-- C2 (amended): the numeric conversions of the type normalizer never
raise — an unparseable amount or coordinate is coerced to the absent
marker and the row is preserved — and the silver stage completes
whenever every record's two date cells are interpretable.  As stated
the claim is false: the timestamp and date-of-birth conversions use the
raising parse, so one unparseable date value aborts the whole stage
(see the counterexample). -/
theorem claim_C2_normalizer_no_raise :
    (∀ r : Record,
       (∃ a, pdToDatetime r.trans_date_trans_time = .ok a) →
       (∃ b, pdToDatetime r.dob = .ok b) →
       ∃ r2, convertRecord r = .ok r2
         ∧ numOrAbsent r2.amt ∧ numOrAbsent r2.lat ∧ numOrAbsent r2.long
         ∧ numOrAbsent r2.merch_lat ∧ numOrAbsent r2.merch_long
         ∧ (∀ s, r.amt = .str s → parseNumeric s = none → r2.amt = .absent)) ∧
    (∀ (now : ℤ) (input : List Record),
       (∀ r ∈ input,
         (∃ a, pdToDatetime r.trans_date_trans_time = .ok a) ∧
         (∃ b, pdToDatetime r.dob = .ok b)) →
       ∃ rows stats, clean_and_validate now input = .ok (rows, stats)) := by
  constructor
  · intro r ht hd
    obtain ⟨r2, hr2, hamt, hlat, hlong, hmlat, hmlong⟩ := convertRecord_ok r ht hd
    refine ⟨r2, hr2, hamt ▸ pdToNumericCoerce_numOrAbsent r.amt,
      hlat ▸ pdToNumericCoerce_numOrAbsent r.lat,
      hlong ▸ pdToNumericCoerce_numOrAbsent r.long,
      hmlat ▸ pdToNumericCoerce_numOrAbsent r.merch_lat,
      hmlong ▸ pdToNumericCoerce_numOrAbsent r.merch_long, ?_⟩
    intro s hs hnone
    rw [hamt, hs]
    simp [pdToNumericCoerce, hnone]
  · intro now input h
    obtain ⟨converted, hconv, hcmem⟩ := mapE_ok_forall convertRecord input
      (fun r hr => (convertRecord_ok r (h r hr).1 (h r hr).2).imp
        (fun r2 hh => hh.1))
    have hvr : ∀ r2 ∈ converted, ∃ sr, silverRow now r2 = .ok sr := by
      intro r2 hr2
      obtain ⟨r, _, hfr⟩ := hcmem r2 hr2
      exact silverRow_ok now r2 (convertRecord_amt r r2 hfr)
    obtain ⟨rows, hrows, -⟩ := mapE_ok_forall (silverRow now) converted hvr
    refine ⟨rows,
      { total_rows := rows.length
        valid_rows := (rows.filter (fun r => r.is_valid)).length
        invalid_rows := (rows.filter (fun r => !r.is_valid)).length }, ?_⟩
    simp [clean_and_validate, hconv, hrows]

/-- Counterexample to C2 as stated: a single record whose transaction
timestamp string is unparseable makes the silver stage raise (the date
conversions do not coerce), instead of the value becoming absent with
the row preserved. -/
theorem claim_C2_counterexample :
    clean_and_validate 5 [{ rec0 with trans_date_trans_time := Value.str sBadDate }]
      = .error .parseError := by
  with_unfolding_all decide

/-- Witness for C2: a record with an unparseable string amount and
interpretable dates is normalized without raising, and the stage
completes on it. -/
theorem claim_C2_witness :
    (∃ r2, convertRecord { rec0 with amt := Value.str sBadNum } = .ok r2
       ∧ numOrAbsent r2.amt ∧ numOrAbsent r2.lat ∧ numOrAbsent r2.long
       ∧ numOrAbsent r2.merch_lat ∧ numOrAbsent r2.merch_long
       ∧ (∀ s, Record.amt { rec0 with amt := Value.str sBadNum } = .str s →
           parseNumeric s = none → r2.amt = .absent)) ∧
    (∃ rows stats,
       clean_and_validate 5 [{ rec0 with amt := Value.str sBadNum }]
         = .ok (rows, stats)) :=
  ⟨claim_C2_normalizer_no_raise.1 { rec0 with amt := Value.str sBadNum }
      ⟨Value.timeVal 0, rfl⟩ ⟨Value.timeVal 0, rfl⟩,
   claim_C2_normalizer_no_raise.2 5 [{ rec0 with amt := Value.str sBadNum }]
      (by
        intro r hr
        rw [List.mem_singleton] at hr
        subst hr
        exact ⟨⟨Value.timeVal 0, rfl⟩, ⟨Value.timeVal 0, rfl⟩⟩)⟩

/-- C3 (amended): for every record whose amount cell is numeric or
absent — the shape the type normalizer guarantees before validation —
`validate_transaction` returns a result and never raises, and any
exception during date interpretation is converted to the
`invalid_date` issue.  As stated over all records the claim is false: a
non-numeric string amount makes the uncaught comparison `row['amt'] < 0`
raise a `TypeError` (see the counterexample). -/
theorem claim_C3_validator_no_raise (now : ℤ) (row : Record)
    (h : numOrAbsent row.amt) :
    ∃ b issues, validate_transaction now row = .ok (b, issues) ∧
      ((∃ e, pdToDatetime row.trans_date_trans_time = .error e) →
        issueInvalidDate ∈ issues) := by
  refine ⟨_, _, validate_eq_ok now row h, ?_⟩
  intro he
  rw [mem_vIssues_invalid]
  exact (invalidB_true_iff _).mpr he

/-- Counterexample to C3 as stated: on a record whose amount is the
non-numeric string `abc` (a malformed record), `validate_transaction`
raises a `TypeError` instead of returning a result. -/
theorem claim_C3_counterexample :
    validate_transaction 5 { rec0 with amt := Value.str sBadNum }
      = .error .typeError := by
  with_unfolding_all decide

/-- Witness for C3: a record with numeric amount and an unparseable
timestamp string is validated without raising, reporting
`invalid_date`. -/
theorem claim_C3_witness :
    ∃ b issues,
      validate_transaction 5 { rec0 with trans_date_trans_time := Value.str sBadDate }
          = .ok (b, issues) ∧
        ((∃ e, pdToDatetime (Record.trans_date_trans_time
              { rec0 with trans_date_trans_time := Value.str sBadDate })
            = .error e) → issueInvalidDate ∈ issues) :=
  claim_C3_validator_no_raise 5
    { rec0 with trans_date_trans_time := Value.str sBadDate }
    (Or.inr ⟨10, rfl⟩)

/-- C7: whenever the silver stage returns, its statistics satisfy
`valid_rows + invalid_rows = total_rows`, with `total_rows` the number
of input records, `valid_rows` the number of output rows with
`is_valid = true` and `invalid_rows` the number with
`is_valid = false`. -/
theorem claim_C7_silver_stats (now : ℤ) (input : List Record)
    (rows : List SilverRow) (stats : SilverStats)
    (h : clean_and_validate now input = .ok (rows, stats)) :
    stats.valid_rows + stats.invalid_rows = stats.total_rows
      ∧ stats.total_rows = input.length
      ∧ stats.valid_rows = (rows.filter (fun r => r.is_valid)).length
      ∧ stats.invalid_rows = (rows.filter (fun r => !r.is_valid)).length := by
  cases h1 : mapE convertRecord input with
  | error e => simp [clean_and_validate, h1] at h
  | ok conv =>
    cases h2 : mapE (silverRow now) conv with
    | error e => simp [clean_and_validate, h1, h2] at h
    | ok rws =>
      simp only [clean_and_validate, h1, h2, Except.ok.injEq, Prod.mk.injEq] at h
      obtain ⟨hr, hs⟩ := h
      subst hr
      rw [← hs]
      refine ⟨length_filter_add_filter_not _ _, ?_, rfl, rfl⟩
      show rws.length = input.length
      rw [mapE_length (silverRow now) conv rws h2,
        mapE_length convertRecord input conv h1]

def witInput : List Record := [rec0, { rec0 with merchant := Value.absent }]

def witRows : List SilverRow :=
  [{ base := rec0, is_valid := true, quality_issues := none,
     silver_processed_at := 5 },
   { base := { rec0 with merchant := Value.absent }, is_valid := false,
     quality_issues := some issueMissingMerchant, silver_processed_at := 5 }]

def witStats : SilverStats :=
  { total_rows := 2, valid_rows := 1, invalid_rows := 1 }

/-- Witness for C7 on a concrete two-record dataset with one valid and
one invalid record. -/
theorem claim_C7_witness :
    witStats.valid_rows + witStats.invalid_rows = witStats.total_rows
      ∧ witStats.total_rows = witInput.length
      ∧ witStats.valid_rows = (witRows.filter (fun r => r.is_valid)).length
      ∧ witStats.invalid_rows = (witRows.filter (fun r => !r.is_valid)).length :=
  claim_C7_silver_stats 5 witInput witRows witStats (by with_unfolding_all decide)

/-! Gold-stage lemmas. -/

theorem roundHalfEven_nonneg (q : ℚ) (h : 0 ≤ q) : 0 ≤ roundHalfEven q := by
  have hf : 0 ≤ ⌊q⌋ := Int.floor_nonneg.mpr h
  simp only [roundHalfEven]
  split_ifs <;> omega

theorem roundHalfEven_le (q : ℚ) (B : ℤ) (h : q ≤ B) : roundHalfEven q ≤ B := by
  have hfl : ⌊q⌋ ≤ B := by
    have := Int.floor_mono h
    simpa using this
  have key : (1 : ℚ)/2 ≤ q - ⌊q⌋ → ⌊q⌋ + 1 ≤ B := by
    intro hr
    have h1 : (⌊q⌋ : ℚ) < q := by linarith
    have h2 : (⌊q⌋ : ℚ) < (B : ℚ) := lt_of_lt_of_le h1 h
    have h3 : ⌊q⌋ < B := by exact_mod_cast h2
    omega
  simp only [roundHalfEven]
  split_ifs with h1 h2 h3
  · exact hfl
  · exact key (le_of_lt h2)
  · exact hfl
  · exact key (not_lt.mp h1)

theorem round2_nonneg (q : ℚ) (h : 0 ≤ q) : 0 ≤ round2 q := by
  have h0 : 0 ≤ roundHalfEven (q * 100) :=
    roundHalfEven_nonneg _ (by positivity)
  unfold round2
  have : (0 : ℚ) ≤ (roundHalfEven (q * 100) : ℚ) := by exact_mod_cast h0
  positivity

theorem round2_le_hundred (q : ℚ) (h : q ≤ 100) : round2 q ≤ 100 := by
  have hb : roundHalfEven (q * 100) ≤ 10000 :=
    roundHalfEven_le _ 10000 (by push_cast; linarith)
  have hbq : (roundHalfEven (q * 100) : ℚ) ≤ 10000 := by exact_mod_cast hb
  unfold round2
  rw [div_le_iff₀ (by norm_num : (0:ℚ) < 100)]
  linarith

theorem flags_sum_bounds (g : List SilverRow)
    (hf : ∀ r ∈ g, r.base.is_fraud = 0 ∨ r.base.is_fraud = 1) :
    0 ≤ (g.map (fun r => r.base.is_fraud)).sum
      ∧ (g.map (fun r => r.base.is_fraud)).sum ≤ (g.length : ℤ) := by
  constructor
  · apply List.sum_nonneg
    intro x hx
    obtain ⟨r, hr, rfl⟩ := List.mem_map.mp hx
    rcases hf r hr with h | h <;> simp [h]
  · have hle := List.sum_le_card_nsmul (g.map fun r => r.base.is_fraud) 1 ?_
    · simpa [smul_eq_mul] using hle
    · intro x hx
      obtain ⟨r, hr, rfl⟩ := List.mem_map.mp hx
      rcases hf r hr with h | h <;> simp [h]

theorem rate_eq_and_bounds (fc : ℤ) (tt : ℕ) (h0 : 0 ≤ fc)
    (h1 : fc ≤ (tt : ℤ)) (h2 : 0 < tt) :
    round2 ((fc : ℚ) / (tt : ℚ) * 100)
        = round2 (100 * (fc : ℚ) / (tt : ℚ))
      ∧ 0 ≤ round2 ((fc : ℚ) / (tt : ℚ) * 100)
      ∧ round2 ((fc : ℚ) / (tt : ℚ) * 100) ≤ 100 := by
  have htq : (0 : ℚ) < (tt : ℚ) := by exact_mod_cast h2
  have hfq0 : (0 : ℚ) ≤ (fc : ℚ) := by exact_mod_cast h0
  have hfq1 : (fc : ℚ) ≤ (tt : ℚ) := by exact_mod_cast h1
  have hx0 : 0 ≤ (fc : ℚ) / (tt : ℚ) * 100 := by positivity
  have hx1 : (fc : ℚ) / (tt : ℚ) * 100 ≤ 100 := by
    have hd1 : (fc : ℚ) / (tt : ℚ) ≤ 1 := (div_le_one htq).mpr hfq1
    nlinarith
  exact ⟨by rw [div_mul_eq_mul_div, mul_comm], round2_nonneg _ hx0,
    round2_le_hundred _ hx1⟩

theorem create_customer_summary_mem {df : List SilverRow} {c : CustomerRow}
    (hc : c ∈ create_customer_summary df) :
    ∃ k, c = mkCustomerRow k (df.filter (fun r => decide (customerKey r = k)))
      ∧ df.filter (fun r => decide (customerKey r = k)) ≠ [] := by
  simp only [create_customer_summary] at hc
  obtain ⟨k, hk, rfl⟩ := List.mem_map.mp hc
  refine ⟨k, rfl, ?_⟩
  obtain ⟨r, hr, hkey⟩ := List.mem_map.mp (List.mem_dedup.mp hk)
  intro hnil
  have hmem : r ∈ df.filter (fun r => decide (customerKey r = k)) :=
    List.mem_filter.mpr ⟨hr, by simp [hkey]⟩
  rw [hnil] at hmem
  exact absurd hmem (List.not_mem_nil r)

theorem create_category_analysis_mem {df : List SilverRow} {c : CategoryRow}
    (hc : c ∈ create_merchant_category_analysis df) :
    ∃ k, c = mkCategoryRow k ((df.filter (fun r => !pdIsna r.base.category)).filter
        (fun r => decide (r.base.category = k)))
      ∧ (df.filter (fun r => !pdIsna r.base.category)).filter
          (fun r => decide (r.base.category = k)) ≠ [] := by
  simp only [create_merchant_category_analysis] at hc
  rw [List.mem_insertionSort] at hc
  obtain ⟨k, hk, rfl⟩ := List.mem_map.mp hc
  refine ⟨k, rfl, ?_⟩
  obtain ⟨r, hr, hkey⟩ := List.mem_map.mp (List.mem_dedup.mp hk)
  intro hnil
  have hmem : r ∈ (df.filter (fun r => !pdIsna r.base.category)).filter
      (fun r => decide (r.base.category = k)) :=
    List.mem_filter.mpr ⟨hr, by simp [hkey]⟩
  rw [hnil] at hmem
  exact absurd hmem (List.not_mem_nil r)

theorem mkCustomerRow_fraud_count (k : ℤ × String) (g : List SilverRow) :
    (mkCustomerRow k g).fraud_count = (g.map (fun r => r.base.is_fraud)).sum := rfl

theorem mkCustomerRow_total (k : ℤ × String) (g : List SilverRow) :
    (mkCustomerRow k g).total_transactions = g.length := rfl

theorem mkCustomerRow_rate (k : ℤ × String) (g : List SilverRow) :
    (mkCustomerRow k g).fraud_rate
      = round2 ((((g.map (fun r => r.base.is_fraud)).sum : ℤ) : ℚ)
          / (g.length : ℚ) * 100) := rfl

theorem mkCategoryRow_fraud_count (k : Value) (g : List SilverRow) :
    (mkCategoryRow k g).fraud_count = (g.map (fun r => r.base.is_fraud)).sum := rfl

theorem mkCategoryRow_total (k : Value) (g : List SilverRow) :
    (mkCategoryRow k g).total_transactions = g.length := rfl

theorem mkCategoryRow_rate (k : Value) (g : List SilverRow) :
    (mkCategoryRow k g).fraud_rate
      = round2 ((((g.map (fun r => r.base.is_fraud)).sum : ℤ) : ℚ)
          / (g.length : ℚ) * 100) := rfl

/-! The gold-stage claims. -/

/-- C1 (amended): the gold stage invoked on a silver dataset with zero
valid rows does not fail: it completes, writing both the customer
summary and the category analysis as empty (zero-row) tables, with
metadata reporting zero valid rows used, zero customers and zero
categories.  As stated the claim is false — no aggregation-input error
is raised and empty tables are produced silently (see the
counterexample). -/
theorem claim_C1_gold_zero_valid_rows (df : List SilverRow)
    (h : ∀ r ∈ df, r.is_valid = false) :
    create_analytical_tables df
      = ([], [], { source_rows := df.length, valid_rows_used := 0,
                   customers := 0, categories := 0 }) := by
  have hf : df.filter (fun r => r.is_valid) = [] := by
    rw [List.filter_eq_nil_iff]
    intro r hr
    simp [h r hr]
  simp [create_analytical_tables, hf, create_customer_summary,
    create_merchant_category_analysis, List.insertionSort]

/-- Counterexample to C1 as stated: on a one-row silver dataset whose
only record is invalid, the gold stage returns normally and writes two
empty output tables instead of failing with an aggregation-input
error. -/
theorem claim_C1_counterexample :
    create_analytical_tables
        [{ base := { rec0 with merchant := Value.absent }, is_valid := false,
           quality_issues := some issueMissingMerchant, silver_processed_at := 0 }]
      = ([], [], { source_rows := 1, valid_rows_used := 0,
                   customers := 0, categories := 0 }) := by
  with_unfolding_all decide

/-- Witness for C1 on the concrete one-invalid-row dataset. -/
theorem claim_C1_witness :
    create_analytical_tables
        [{ base := { rec0 with merchant := Value.absent }, is_valid := false,
           quality_issues := some issueMissingMerchant, silver_processed_at := 0 }]
      = ([], [],
          { source_rows :=
              [({ base := { rec0 with merchant := Value.absent }, is_valid := false,
                  quality_issues := some issueMissingMerchant,
                  silver_processed_at := 0 } : SilverRow)].length,
            valid_rows_used := 0, customers := 0, categories := 0 }) :=
  claim_C1_gold_zero_valid_rows
    [{ base := { rec0 with merchant := Value.absent }, is_valid := false,
       quality_issues := some issueMissingMerchant, silver_processed_at := 0 }]
    (by intro r hr; rw [List.mem_singleton] at hr; subst hr; rfl)

/-- C8: when every input record's fraud flag is 0 or 1, every customer
summary row and every category analysis row satisfies
`fraud_rate = round2(100 * fraud_count / total_transactions)`,
`fraud_count ≤ total_transactions`, and `0 ≤ fraud_rate ≤ 100`. -/
theorem claim_C8_fraud_rate (df : List SilverRow)
    (hf : ∀ r ∈ df, r.base.is_fraud = 0 ∨ r.base.is_fraud = 1) :
    (∀ c ∈ create_customer_summary df,
       c.fraud_rate
           = round2 (100 * (c.fraud_count : ℚ) / (c.total_transactions : ℚ))
         ∧ c.fraud_count ≤ (c.total_transactions : ℤ)
         ∧ 0 ≤ c.fraud_rate ∧ c.fraud_rate ≤ 100) ∧
    (∀ c ∈ create_merchant_category_analysis df,
       c.fraud_rate
           = round2 (100 * (c.fraud_count : ℚ) / (c.total_transactions : ℚ))
         ∧ c.fraud_count ≤ (c.total_transactions : ℤ)
         ∧ 0 ≤ c.fraud_rate ∧ c.fraud_rate ≤ 100) := by
  constructor
  · intro c hc
    obtain ⟨k, rfl, hne⟩ := create_customer_summary_mem hc
    set g := df.filter (fun r => decide (customerKey r = k)) with hg
    have hsub : ∀ r ∈ g, r ∈ df := fun r hr => (List.mem_filter.mp hr).1
    obtain ⟨hs0, hs1⟩ := flags_sum_bounds g (fun r hr => hf r (hsub r hr))
    have hlen : 0 < g.length := List.length_pos.mpr hne
    obtain ⟨heq, hnn, hle⟩ := rate_eq_and_bounds _ _ hs0 hs1 hlen
    rw [mkCustomerRow_rate, mkCustomerRow_fraud_count, mkCustomerRow_total]
    exact ⟨heq, hs1, hnn, hle⟩
  · intro c hc
    obtain ⟨k, rfl, hne⟩ := create_category_analysis_mem hc
    set g := (df.filter (fun r => !pdIsna r.base.category)).filter
      (fun r => decide (r.base.category = k)) with hg
    have hsub : ∀ r ∈ g, r ∈ df := fun r hr =>
      (List.mem_filter.mp (List.mem_filter.mp hr).1).1
    obtain ⟨hs0, hs1⟩ := flags_sum_bounds g (fun r hr => hf r (hsub r hr))
    have hlen : 0 < g.length := List.length_pos.mpr hne
    obtain ⟨heq, hnn, hle⟩ := rate_eq_and_bounds _ _ hs0 hs1 hlen
    rw [mkCategoryRow_rate, mkCategoryRow_fraud_count, mkCategoryRow_total]
    exact ⟨heq, hs1, hnn, hle⟩

/-- The group of the two demo rows of customer 1 (also the group of the
`grocery_pos` category). -/
def demoGroup : List SilverRow :=
  [asValidRow rec0,
   asValidRow { rec0 with is_fraud := 1, merchant := Value.str sStoreB }]

/-- Witness for C8 on the concrete three-row dataset: the customer-1 row
(2 transactions, 1 fraud) and the `grocery_pos` row. -/
theorem claim_C8_witness :
    ((mkCustomerRow (1, sJohn ++ " " ++ sDoe) demoGroup).fraud_rate
        = round2 (100 * ((mkCustomerRow (1, sJohn ++ " " ++ sDoe) demoGroup).fraud_count : ℚ)
            / ((mkCustomerRow (1, sJohn ++ " " ++ sDoe) demoGroup).total_transactions : ℚ))
      ∧ (mkCustomerRow (1, sJohn ++ " " ++ sDoe) demoGroup).fraud_count
          ≤ ((mkCustomerRow (1, sJohn ++ " " ++ sDoe) demoGroup).total_transactions : ℤ)
      ∧ 0 ≤ (mkCustomerRow (1, sJohn ++ " " ++ sDoe) demoGroup).fraud_rate
      ∧ (mkCustomerRow (1, sJohn ++ " " ++ sDoe) demoGroup).fraud_rate ≤ 100)
    ∧ ((mkCategoryRow (Value.str sGrocery) demoGroup).fraud_rate
        = round2 (100 * ((mkCategoryRow (Value.str sGrocery) demoGroup).fraud_count : ℚ)
            / ((mkCategoryRow (Value.str sGrocery) demoGroup).total_transactions : ℚ))
      ∧ (mkCategoryRow (Value.str sGrocery) demoGroup).fraud_count
          ≤ ((mkCategoryRow (Value.str sGrocery) demoGroup).total_transactions : ℤ)
      ∧ 0 ≤ (mkCategoryRow (Value.str sGrocery) demoGroup).fraud_rate
      ∧ (mkCategoryRow (Value.str sGrocery) demoGroup).fraud_rate ≤ 100) :=
  ⟨(claim_C8_fraud_rate demoSilver (by with_unfolding_all decide)).1
      (mkCustomerRow (1, sJohn ++ " " ++ sDoe) demoGroup)
      (by with_unfolding_all decide),
   (claim_C8_fraud_rate demoSilver (by with_unfolding_all decide)).2
      (mkCategoryRow (Value.str sGrocery) demoGroup)
      (by with_unfolding_all decide)⟩

/-- C9: the category analysis table is ordered descending by transaction
count: every row's `total_transactions` is at least the next row's. -/
theorem claim_C9_sorted_desc (df : List SilverRow) (i : ℕ)
    (h : i + 1 < (create_merchant_category_analysis df).length) :
    ((create_merchant_category_analysis df).getD (i + 1) default).total_transactions
      ≤ ((create_merchant_category_analysis df).getD i default).total_transactions := by
  have hi : i < (create_merchant_category_analysis df).length := Nat.lt_of_succ_lt h
  have hs : List.Sorted byCountDesc (create_merchant_category_analysis df) := by
    simp only [create_merchant_category_analysis]
    exact List.sorted_insertionSort byCountDesc _
  have hrel := List.pairwise_iff_get.mp hs ⟨i, hi⟩ ⟨i + 1, h⟩ (by simp [Fin.lt_def])
  rw [List.getD_eq_getElem _ _ h, List.getD_eq_getElem _ _ hi]
  exact hrel

/-- Witness for C9 on the concrete three-row dataset with two
categories. -/
theorem claim_C9_witness :
    ((create_merchant_category_analysis demoSilver).getD 1 default).total_transactions
      ≤ ((create_merchant_category_analysis demoSilver).getD 0 default).total_transactions :=
  claim_C9_sorted_desc demoSilver 0 (by with_unfolding_all decide)

end Pipeline
